import Mathlib

/-!
# Verification of the CodeWisdom Analyzer core

A shallow embedding of the metric-extraction and scoring engine
(`Analyzer.cpp`, `Metrics.h`, `LanguageStrategy.h`, `Parser.cpp`,
`main.cpp`).  Syntax trees are modelled as an inductive type mirroring
tree-sitter's `TSNode` interface: every node carries a type tag, start/end
row, start/end byte, an optional field name (the name of the field this
node occupies in its parent, which is how `ts_node_child_by_field_name`
is resolved), and an ordered list of children.  "Null nodes" returned by
tree-sitter lookups are modelled with `Option`.  The source text is a
list of characters indexed by byte offsets.  `double` arithmetic of the
scoring model is modelled with exact rationals `ℚ`.
-/

namespace CodeWisdom

/-- A tree-sitter syntax node (the external SyntaxNode abstraction). -/
inductive TSNode where
  | mk (type : String) (startRow endRow startByte endByte : Nat)
       (field : Option String) (children : List TSNode)

def TSNode.type : TSNode → String
  | .mk ty _ _ _ _ _ _ => ty

def TSNode.startRow : TSNode → Nat
  | .mk _ sr _ _ _ _ _ => sr

def TSNode.endRow : TSNode → Nat
  | .mk _ _ er _ _ _ _ => er

def TSNode.startByte : TSNode → Nat
  | .mk _ _ _ sb _ _ _ => sb

def TSNode.endByte : TSNode → Nat
  | .mk _ _ _ _ eb _ _ => eb

def TSNode.field : TSNode → Option String
  | .mk _ _ _ _ _ f _ => f

def TSNode.children : TSNode → List TSNode
  | .mk _ _ _ _ _ _ cs => cs

/-- `ts_node_child_by_field_name`: the first child filling the given field. -/
def childByField (n : TSNode) (f : String) : Option TSNode :=
  n.children.find? (fun c => c.field == some f)

/-- `getNodeText` (Analyzer.cpp): empty on a null node, otherwise the
source substring `[startByte, endByte)`. -/
def getNodeText (n : Option TSNode) (source : List Char) : String :=
  match n with
  | none => ""
  | some nd => ((source.drop nd.startByte).take (nd.endByte - nd.startByte)).asString

mutual

/-- `findIdentifierRecursive` (Analyzer.cpp): first node of type
`identifier` in pre-order, or null. -/
def findIdentifierRecursive : TSNode → Option TSNode
  | .mk ty sr er sb eb f cs =>
    if ty = "identifier" then some (.mk ty sr er sb eb f cs)
    else findIdentifierInChildren cs

def findIdentifierInChildren : List TSNode → Option TSNode
  | [] => none
  | c :: cs =>
    match findIdentifierRecursive c with
    | some r => some r
    | none => findIdentifierInChildren cs

end

mutual

/-- `hasChildOfTypeRecursive` (Analyzer.cpp). -/
def hasChildOfTypeRecursive : TSNode → String → Bool
  | .mk ty _ _ _ _ _ cs, target => ty = target || hasChildOfTypeInChildren cs target

def hasChildOfTypeInChildren : List TSNode → String → Bool
  | [], _ => false
  | c :: cs, target => hasChildOfTypeRecursive c target || hasChildOfTypeInChildren cs target

end

/-- A language strategy: the virtual interface of `LanguageStrategy.h`,
as a record of its five capabilities.  `extractFunctionName` additionally
receives the parent of the function node, because the JS strategy reads
`ts_node_parent(node)`; all other strategies ignore that argument. -/
structure LanguageStrategy where
  functionDefinitionTypes : List String
  complexityNodeTypes : List String
  extractFunctionName : TSNode → Option TSNode → List Char → String
  isLogicalOperator : TSNode → Bool
  isSpecialFunction : TSNode → Bool

/-- `LanguageStrategy::isLogicalOperator` (base-class implementation). -/
def defaultIsLogicalOperator (node : TSNode) : Bool :=
  if node.type = "binary_expression" then
    match childByField node "operator" with
    | some op => op.type = "&&" || op.type = "||"
    | none => false
  else false

/-- `CStrategy::isSpecialFunction`. -/
def cIsSpecialFunction (functionNode : TSNode) : Bool :=
  let declarator :=
    match childByField functionNode "declarator" with
    | some d => some d
    | none => childByField functionNode "abstract_declarator"
  match declarator with
  | none => false
  | some d =>
    hasChildOfTypeRecursive d "operator_name" || hasChildOfTypeRecursive d "destructor_name"

/-- `CStrategy::extractFunctionName`. -/
def cExtractFunctionName (node : TSNode) (_parent : Option TSNode) (source : List Char) : String :=
  match childByField node "declarator" with
  | some declaratorNode =>
    match findIdentifierRecursive declaratorNode with
    | some identifierNode => getNodeText (some identifierNode) source
    | none => "[extraction_failed]"
  | none => "[extraction_failed]"

def cStrategy : LanguageStrategy where
  functionDefinitionTypes := ["function_definition"]
  complexityNodeTypes :=
    ["if_statement", "for_statement", "while_statement", "do_statement",
     "case_statement", "catch_clause", "conditional_expression"]
  extractFunctionName := cExtractFunctionName
  isLogicalOperator := defaultIsLogicalOperator
  isSpecialFunction := cIsSpecialFunction

/-- `class CppStrategy : public CStrategy {}` — C++ reuses C unchanged. -/
def cppStrategy : LanguageStrategy := cStrategy

def pythonStrategy : LanguageStrategy where
  functionDefinitionTypes := ["function_definition"]
  complexityNodeTypes :=
    ["if_statement", "for_statement", "while_statement", "except_clause",
     "conditional_expression", "elif_clause"]
  extractFunctionName := fun node _parent source => getNodeText (childByField node "name") source
  isLogicalOperator := fun node => node.type = "boolean_operator"
  isSpecialFunction := fun _ => false

def javaStrategy : LanguageStrategy where
  functionDefinitionTypes := ["method_declaration", "constructor_declaration"]
  complexityNodeTypes :=
    ["if_statement", "for_statement", "while_statement", "do_statement",
     "switch_expression", "catch_clause", "ternary_expression"]
  extractFunctionName := fun node _parent source => getNodeText (childByField node "name") source
  isLogicalOperator := defaultIsLogicalOperator
  isSpecialFunction := fun _ => false

def rustStrategy : LanguageStrategy where
  functionDefinitionTypes := ["function_item"]
  complexityNodeTypes :=
    ["if_expression", "for_expression", "while_expression", "match_arm", "loop_expression"]
  extractFunctionName := fun node _parent source => getNodeText (childByField node "name") source
  isLogicalOperator := defaultIsLogicalOperator
  isSpecialFunction := fun _ => false

def goStrategy : LanguageStrategy where
  functionDefinitionTypes := ["function_declaration", "method_declaration"]
  complexityNodeTypes :=
    ["if_statement", "for_statement", "switch_statement", "select_statement"]
  extractFunctionName := fun node _parent source => getNodeText (childByField node "name") source
  isLogicalOperator := defaultIsLogicalOperator
  isSpecialFunction := fun _ => false

/-- `JSStrategy::extractFunctionName`: name field if present; for an
arrow function bound in a variable declarator, the declarator's name;
otherwise the anonymous-function sentinel. -/
def jsExtractFunctionName (node : TSNode) (parent : Option TSNode) (source : List Char) : String :=
  match childByField node "name" with
  | some nameNode => getNodeText (some nameNode) source
  | none =>
    if node.type = "arrow_function" then
      match parent with
      | some p =>
        if p.type = "variable_declarator" then getNodeText (childByField p "name") source
        else "[anonymous function]"
      | none => "[anonymous function]"
    else "[anonymous function]"

def jsStrategy : LanguageStrategy where
  functionDefinitionTypes := ["function_declaration", "function", "arrow_function", "method_definition"]
  complexityNodeTypes :=
    ["if_statement", "for_statement", "for_in_statement", "while_statement",
     "do_statement", "switch_case", "catch_clause", "ternary_expression"]
  extractFunctionName := jsExtractFunctionName
  isLogicalOperator := defaultIsLogicalOperator
  isSpecialFunction := fun _ => false

/-- `class TSStrategy : public JSStrategy {}` — TypeScript reuses JS unchanged. -/
def tsStrategy : LanguageStrategy := jsStrategy

/-- `createStrategy` (Analyzer.cpp): the strategy factory. -/
def createStrategy (language : String) : Option LanguageStrategy :=
  if language = "c" then some cStrategy
  else if language = "cpp" then some cppStrategy
  else if language = "python" then some pythonStrategy
  else if language = "java" then some javaStrategy
  else if language = "rust" then some rustStrategy
  else if language = "go" then some goStrategy
  else if language = "javascript" then some jsStrategy
  else if language = "typescript" then some tsStrategy
  else none

/-- `FunctionMetric` (Metrics.h), with its member initializers. -/
structure FunctionMetric where
  name : String := ""
  line_start : Nat := 0
  line_end : Nat := 0
  line_count : Nat := 0
  complexity : Nat := 1
deriving DecidableEq, Repr

/-- `FileMetrics` (Metrics.h), with its member initializers.
`comment_coverage` models the `comment_coverage_ratio` member. -/
structure FileMetrics where
  file_path : String := ""
  functions : List FunctionMetric := []
  avg_function_length : ℚ := 0
  avg_function_complexity : ℚ := 0
  total_lines : Nat := 0
  comment_lines : Nat := 0
  comment_coverage : ℚ := 0
  naming_violations : Nat := 0
  shit_mountain_index : ℚ := 0
deriving DecidableEq, Repr

mutual

/-- `Analyzer::calculateComplexity`: +1 per complexity-type node, else
+1 per logical-operator node, summed over the subtree, and +1 more for
every node whose type is a function-definition type. -/
def calculateComplexity (strat : LanguageStrategy) : TSNode → Nat
  | .mk ty sr er sb eb f cs =>
    let node := TSNode.mk ty sr er sb eb f cs
    let complexity : Nat :=
      if ty ∈ strat.complexityNodeTypes then 1
      else if strat.isLogicalOperator node then 1
      else 0
    let total := complexity + complexityOfChildren strat cs
    if ty ∈ strat.functionDefinitionTypes then total + 1 else total

def complexityOfChildren (strat : LanguageStrategy) : List TSNode → Nat
  | [] => 0
  | c :: cs => calculateComplexity strat c + complexityOfChildren strat cs

end

/-- `Analyzer::analyzeSingleFunction`: build one `FunctionMetric`; an
empty extracted name is replaced by the `"[anonymous/unknown]"` sentinel. -/
def analyzeSingleFunction (strat : LanguageStrategy) (funcNode : TSNode)
    (parent : Option TSNode) (sourceCode : List Char) : FunctionMetric :=
  let line_start := funcNode.startRow + 1
  let line_end := funcNode.endRow + 1
  let extracted := strat.extractFunctionName funcNode parent sourceCode
  { name := if extracted = "" then "[anonymous/unknown]" else extracted
    line_start := line_start
    line_end := line_end
    line_count := line_end - line_start + 1
    complexity := calculateComplexity strat funcNode }

mutual

/-- `Analyzer::analyzeFunctions`: pre-order function discovery; at a
function-definition-type node, emit a record unless the node is special,
and never descend into its children. -/
def analyzeFunctions (strat : LanguageStrategy) :
    TSNode → Option TSNode → List Char → List FunctionMetric
  | .mk ty sr er sb eb f cs, parent, sourceCode =>
    let node := TSNode.mk ty sr er sb eb f cs
    if ty ∈ strat.functionDefinitionTypes then
      if strat.isSpecialFunction node then []
      else [analyzeSingleFunction strat node parent sourceCode]
    else analyzeFunctionsList strat cs (some node) sourceCode

def analyzeFunctionsList (strat : LanguageStrategy) :
    List TSNode → Option TSNode → List Char → List FunctionMetric
  | [], _, _ => []
  | c :: cs, parent, sourceCode =>
    analyzeFunctions strat c parent sourceCode ++ analyzeFunctionsList strat cs parent sourceCode

end

mutual

/-- The `comment_lines` accumulation of `Analyzer::analyzeFileWideMetrics`. -/
def commentLines : TSNode → Nat
  | .mk ty sr er _ _ _ cs =>
    (if ty = "comment" then er - sr + 1 else 0) + commentLinesOfChildren cs

def commentLinesOfChildren : List TSNode → Nat
  | [] => 0
  | c :: cs => commentLines c + commentLinesOfChildren cs

end

/-- The short-identifier allowlist of `Analyzer::analyzeNaming`. -/
def namingWhitelist : List String :=
  ["i", "j", "k", "x", "y", "z", "os", "fs", "it", "c", "ts", "js"]

mutual

/-- `Analyzer::analyzeNaming`: count identifiers of length ≤ 2 that are
not on the allowlist, over the whole tree. -/
def namingViolations (sourceCode : List Char) : TSNode → Nat
  | .mk ty sr er sb eb f cs =>
    (if ty = "identifier" then
       let name := getNodeText (some (TSNode.mk ty sr er sb eb f cs)) sourceCode
       if name.length ≤ 2 && !(namingWhitelist.contains name) then 1 else 0
     else 0) + namingViolationsOfChildren sourceCode cs

def namingViolationsOfChildren (sourceCode : List Char) : List TSNode → Nat
  | [] => 0
  | c :: cs => namingViolations sourceCode c + namingViolationsOfChildren sourceCode cs

end

/-- Policy-B complexity score (Analyzer.cpp line 355). -/
def complexityScoreB (avg_function_complexity : ℚ) : ℚ :=
  max 0 (100 - (avg_function_complexity - 1) / (20 - 1) * 100)

/-- Policy-B length score (Analyzer.cpp line 358). -/
def lengthScoreB (avg_function_length : ℚ) : ℚ :=
  max 0 (100 - (avg_function_length - 10) / (100 - 10) * 100)

/-- Policy-B comment score (Analyzer.cpp line 361). -/
def commentScoreB (coverage : ℚ) : ℚ :=
  max 0 (100 - |coverage - 15| / 15 * 100)

/-- Policy-A comment score (Analyzer.cpp line 345). -/
def commentScoreA (coverage : ℚ) : ℚ :=
  min 100 ((coverage / 30) * 100)

/-- The naming score, shared by both policies (Analyzer.cpp line 336). -/
def namingScore (naming_violations : Nat) : ℚ :=
  max 0 (100 - (naming_violations : ℚ) * 5)

/-- `Analyzer::calculateFinalScore`: recompute the aggregate raw metrics,
then fill `shit_mountain_index` by Model A (no functions) or Model B. -/
def calculateFinalScore (metrics : FileMetrics) : FileMetrics :=
  let metrics :=
    if !metrics.functions.isEmpty then
      let total_length : ℚ := (metrics.functions.map (fun func => (func.line_count : ℚ))).sum
      let total_complexity : ℚ := (metrics.functions.map (fun func => (func.complexity : ℚ))).sum
      { metrics with
        avg_function_length := total_length / (metrics.functions.length : ℚ)
        avg_function_complexity := total_complexity / (metrics.functions.length : ℚ) }
    else metrics
  let metrics :=
    if metrics.total_lines > 0 then
      { metrics with
        comment_coverage := (metrics.comment_lines : ℚ) / (metrics.total_lines : ℚ) * 100 }
    else metrics
  let naming_score := namingScore metrics.naming_violations
  if metrics.functions.isEmpty then
    let comment_score := commentScoreA metrics.comment_coverage
    let total_quality_score := comment_score * 0.7 + naming_score * 0.3
    { metrics with shit_mountain_index := 100 - total_quality_score }
  else
    let complexity_score := complexityScoreB metrics.avg_function_complexity
    let length_score := lengthScoreB metrics.avg_function_length
    let comment_score := commentScoreB metrics.comment_coverage
    let total_quality_score :=
      complexity_score * 0.50 + length_score * 0.15 + comment_score * 0.15 + naming_score * 0.20
    { metrics with shit_mountain_index := 100 - total_quality_score }

/-- `Analyzer::analyze`: the three extraction passes followed by scoring.
`total_lines` is `end row of the root + 1`; the root's parent is null. -/
def analyze (strat : LanguageStrategy) (rootNode : TSNode)
    (filePath : String) (sourceCode : List Char) : FileMetrics :=
  calculateFinalScore
    { file_path := filePath
      functions := analyzeFunctions strat rootNode none sourceCode
      total_lines := rootNode.endRow + 1
      comment_lines := commentLines rootNode
      naming_violations := namingViolations sourceCode rootNode }

mutual

/-- `ts_node_has_error`: the subtree contains a syntax-error node. -/
def hasErrorNode : TSNode → Bool
  | .mk ty _ _ _ _ _ cs => ty = "ERROR" || hasErrorInChildren cs

def hasErrorInChildren : List TSNode → Bool
  | [] => false
  | c :: cs => hasErrorNode c || hasErrorInChildren cs

end

/-- The languages `Parser::getLanguage` has grammars for. -/
def supportedLanguages : List String :=
  ["c", "cpp", "python", "java", "rust", "go", "javascript", "typescript"]

/-- `Parser::parse`: true only for a supported language whose parse
produced a tree (`some`) containing no syntax error. -/
def parseSucceeds (parsedTree : Option TSNode) (language : String) : Bool :=
  supportedLanguages.contains language &&
    match parsedTree with
    | none => false
    | some root => !hasErrorNode root

/-- The extension table of `getLanguageFromFile` (main.cpp). -/
def extensionMap : List (String × String) :=
  [(".cpp", "cpp"), (".hpp", "cpp"), (".h", "cpp"), (".cc", "cpp"), (".cxx", "cpp"),
   (".c", "c"), (".py", "python"), (".java", "java"), (".rs", "rust"), (".go", "go"),
   (".js", "javascript"), (".ts", "typescript")]

/-- The suffix of a character list starting at its last dot
(`find_last_of` + `substr` in `getLanguageFromFile`). -/
def lastDotSuffix : List Char → Option (List Char)
  | [] => none
  | c :: cs =>
    match lastDotSuffix cs with
    | some r => some r
    | none => if c = '.' then some (c :: cs) else none

/-- `getLanguageFromFile` (main.cpp). -/
def getLanguageFromFile (filePath : String) : String :=
  match lastDotSuffix filePath.toList with
  | none => "unsupported"
  | some ext =>
    match extensionMap.lookup ext.asString with
    | some language => language
    | none => "unsupported"

/-- `analyzeFile` (main.cpp): the per-file pipeline.  The I/O steps are
out of the core; the parse outcome of the file's text stands in as the
`parsedTree` argument (`none` models an outright parser failure).  Every
early-out returns a default-constructed `FileMetrics`. -/
def analyzeFile (filePath : String) (sourceCode : List Char)
    (parsedTree : Option TSNode) : FileMetrics :=
  let language := getLanguageFromFile filePath
  if language = "unsupported" then {}
  else if parseSucceeds parsedTree language then
    match parsedTree with
    | some root =>
      match createStrategy language with
      | some strat => analyze strat root filePath sourceCode
      | none => {}
    | none => {}
  else {}

/-- One discovered regular file of the run: its path, its text, and the
parse outcome the external parser produced for it. -/
structure InputFile where
  path : String
  sourceCode : List Char
  parsedTree : Option TSNode

/-- The collection loop of `main`: analyze each file in discovery order
and keep the results with a non-empty `file_path`. -/
def collectMetrics (files : List InputFile) : List FileMetrics :=
  files.foldl
    (fun all_metrics entry =>
      let result := analyzeFile entry.path entry.sourceCode entry.parsedTree
      if result.file_path ≠ "" then all_metrics ++ [result] else all_metrics)
    []

/-- The ranking step of `main` calls `std::sort` with the comparator
`a.shit_mountain_index > b.shit_mountain_index`.  `std::sort` is an
external library routine specified only by its postcondition: the output
is a permutation of the input that is sorted with respect to the
comparator (no two consecutive elements compare in the wrong order).
This relation holds exactly for the outputs `std::sort` may produce. -/
def rankingOutcome (input output : List FileMetrics) : Prop :=
  output.Perm input ∧
    output.Chain' (fun a b => ¬(b.shit_mountain_index > a.shit_mountain_index))

/-! ## Spec-side definitions

Definitions written from the specification's words, to be compared with
the embedded code. -/

/-- The per-node complexity contribution as the spec states it (§4.2
step 3): 1 for a complexity-type node, else 1 for a logical-operator
node, else 0 — never more than 1 per node. -/
def nodeIndicator (strat : LanguageStrategy) (node : TSNode) : Nat :=
  if node.type ∈ strat.complexityNodeTypes then 1
  else if strat.isLogicalOperator node then 1
  else 0

mutual

/-- Sum of `nodeIndicator` over a whole subtree (spec §4.2 step 3). -/
def indicatorSum (strat : LanguageStrategy) : TSNode → Nat
  | .mk ty sr er sb eb f cs =>
    nodeIndicator strat (.mk ty sr er sb eb f cs) + indicatorSumList strat cs

def indicatorSumList (strat : LanguageStrategy) : List TSNode → Nat
  | [] => 0
  | c :: cs => indicatorSum strat c + indicatorSumList strat cs

end

mutual

/-- Number of function-definition-type nodes in a subtree. -/
def funcNodeCount (strat : LanguageStrategy) : TSNode → Nat
  | .mk ty _ _ _ _ _ cs =>
    (if ty ∈ strat.functionDefinitionTypes then 1 else 0) + funcNodeCountList strat cs

def funcNodeCountList (strat : LanguageStrategy) : List TSNode → Nat
  | [] => 0
  | c :: cs => funcNodeCount strat c + funcNodeCountList strat cs

end

/-- Policy A exactly as the spec words it (§4.3). -/
def policyA_spec (coverage : ℚ) (violations : Nat) : ℚ :=
  let comment_score := min 100 (coverage / 30 * 100)
  let naming_score := max 0 (100 - (violations : ℚ) * 5)
  let quality := comment_score * 0.7 + naming_score * 0.3
  100 - quality

/-- Policy B exactly as the spec words it (§4.3). -/
def policyB_spec (avg_complexity avg_length coverage : ℚ) (violations : Nat) : ℚ :=
  let complexity_score := max 0 (100 - (avg_complexity - 1) / (20 - 1) * 100)
  let length_score := max 0 (100 - (avg_length - 10) / (100 - 10) * 100)
  let comment_score := max 0 (100 - |coverage - 15| / 15 * 100)
  let naming_score := max 0 (100 - (violations : ℚ) * 5)
  let quality :=
    complexity_score * 0.50 + length_score * 0.15 + comment_score * 0.15 + naming_score * 0.20
  100 - quality

/-- The average function length `calculateFinalScore` leaves in the
metrics: recomputed when there are functions, untouched otherwise. -/
def avgLengthOf (m : FileMetrics) : ℚ :=
  if !m.functions.isEmpty then
    (m.functions.map (fun func => (func.line_count : ℚ))).sum / (m.functions.length : ℚ)
  else m.avg_function_length

/-- The average function complexity `calculateFinalScore` leaves in the
metrics. -/
def avgComplexityOf (m : FileMetrics) : ℚ :=
  if !m.functions.isEmpty then
    (m.functions.map (fun func => (func.complexity : ℚ))).sum / (m.functions.length : ℚ)
  else m.avg_function_complexity

/-- The comment-coverage percentage `calculateFinalScore` leaves in the
metrics: recomputed when the file has lines, untouched otherwise. -/
def coverageOf (m : FileMetrics) : ℚ :=
  if m.total_lines > 0 then (m.comment_lines : ℚ) / (m.total_lines : ℚ) * 100
  else m.comment_coverage

/-! ## Concrete example trees -/

/-- `int foo(){}` as a source text. -/
def c1Src : List Char := "int foo(){}".toList

def c1Identifier : TSNode := .mk "identifier" 0 0 4 7 (some "declarator") []

def c1Params : TSNode := .mk "parameter_list" 0 0 7 9 (some "parameters") []

def c1Declarator : TSNode :=
  .mk "function_declarator" 0 0 4 9 (some "declarator") [c1Identifier, c1Params]

def c1RetType : TSNode := .mk "primitive_type" 0 0 0 3 (some "type") []

def c1Body : TSNode := .mk "compound_statement" 0 0 9 11 (some "body") []

/-- A one-line C function definition named `foo` with complexity 1. -/
def c1Func : TSNode := .mk "function_definition" 0 0 0 11 none [c1RetType, c1Declarator, c1Body]

/-- A three-line comment. -/
def c1Comment : TSNode := .mk "comment" 2 4 12 20 none []

/-- A 20-line C translation unit holding one one-line function and a
three-line comment: comment coverage is exactly 15%. -/
def c1Root : TSNode := .mk "translation_unit" 0 19 0 21 none [c1Func, c1Comment]

/-- A Python `function_definition` node with no `name` field: name
extraction returns the empty string for it. -/
def pyAnonFunc : TSNode := .mk "function_definition" 0 0 0 10 none []

/-- A JavaScript function declaration nested inside another one. -/
def jsInnerFunc : TSNode := .mk "function_declaration" 1 2 5 20 none []

def jsOuterFunc : TSNode := .mk "function_declaration" 0 3 0 30 none [jsInnerFunc]

/-- The declarator of a C++ destructor definition. -/
def dtorName : TSNode := .mk "destructor_name" 0 0 0 5 none []

def dtorDeclarator : TSNode := .mk "function_declarator" 0 0 0 10 (some "declarator") [dtorName]

/-- A C++ destructor definition: an exempt (special) function node. -/
def dtorFunc : TSNode := .mk "function_definition" 0 2 0 30 none [dtorDeclarator]

/-- An exempt operator-overload definition with a `function_definition`
nested inside its body. -/
def opName : TSNode := .mk "operator_name" 0 0 0 9 none []

def opDeclarator : TSNode := .mk "function_declarator" 0 0 0 20 (some "declarator") [opName]

def opNestedFunc : TSNode := .mk "function_definition" 1 1 25 40 none []

def opBody : TSNode := .mk "compound_statement" 0 2 21 45 (some "body") [opNestedFunc]

def opFunc : TSNode := .mk "function_definition" 0 2 0 45 none [opDeclarator, opBody]

/-- Two reports with distinct paths and equal index 50. -/
def reportA : FileMetrics := { file_path := "a.c", shit_mountain_index := 50 }

def reportB : FileMetrics := { file_path := "b.c", shit_mountain_index := 50 }

/-- A root node containing a syntax-error node. -/
def errorRoot : TSNode := .mk "translation_unit" 0 0 0 0 none [.mk "ERROR" 0 0 0 0 none []]

/-! ## Helper lemmas -/

mutual

theorem calculateComplexity_decomposed (strat : LanguageStrategy) : ∀ node : TSNode,
    calculateComplexity strat node = indicatorSum strat node + funcNodeCount strat node
  | .mk ty sr er sb eb f cs => by
    have ih := complexityOfChildren_decomposed strat cs
    simp only [calculateComplexity, indicatorSum, funcNodeCount, nodeIndicator, TSNode.type]
    split_ifs <;> omega

theorem complexityOfChildren_decomposed (strat : LanguageStrategy) : ∀ cs : List TSNode,
    complexityOfChildren strat cs = indicatorSumList strat cs + funcNodeCountList strat cs
  | [] => by simp [complexityOfChildren, indicatorSumList, funcNodeCountList]
  | c :: cs => by
    have ih1 := calculateComplexity_decomposed strat c
    have ih2 := complexityOfChildren_decomposed strat cs
    simp only [complexityOfChildren, indicatorSumList, funcNodeCountList]
    omega

end

theorem funcNodeCount_pos (strat : LanguageStrategy) (node : TSNode)
    (h : node.type ∈ strat.functionDefinitionTypes) : 1 ≤ funcNodeCount strat node := by
  obtain ⟨ty, sr, er, sb, eb, f, cs⟩ := node
  simp only [TSNode.type] at h
  simp only [funcNodeCount, if_pos h]
  omega

theorem one_le_calculateComplexity (strat : LanguageStrategy) (node : TSNode)
    (h : node.type ∈ strat.functionDefinitionTypes) : 1 ≤ calculateComplexity strat node := by
  rw [calculateComplexity_decomposed]
  have := funcNodeCount_pos strat node h
  omega

theorem analyzeSingleFunction_well_formed (strat : LanguageStrategy) (node : TSNode)
    (parent : Option TSNode) (src : List Char)
    (h : node.type ∈ strat.functionDefinitionTypes) :
    1 ≤ (analyzeSingleFunction strat node parent src).complexity ∧
      1 ≤ (analyzeSingleFunction strat node parent src).line_count := by
  constructor
  · exact one_le_calculateComplexity strat node h
  · simp only [analyzeSingleFunction]
    omega

mutual

theorem mem_analyzeFunctions (strat : LanguageStrategy) : ∀ (node : TSNode)
    (parent : Option TSNode) (src : List Char) (func : FunctionMetric),
    func ∈ analyzeFunctions strat node parent src → 1 ≤ func.complexity ∧ 1 ≤ func.line_count
  | .mk ty sr er sb eb f cs, parent, src, func => by
    intro hmem
    simp only [analyzeFunctions] at hmem
    by_cases hty : ty ∈ strat.functionDefinitionTypes
    · rw [if_pos hty] at hmem
      split_ifs at hmem with hspec
      · simp at hmem
      · simp only [List.mem_singleton] at hmem
        subst hmem
        exact analyzeSingleFunction_well_formed strat (.mk ty sr er sb eb f cs) parent src hty
    · rw [if_neg hty] at hmem
      exact mem_analyzeFunctionsList strat cs (some (.mk ty sr er sb eb f cs)) src func hmem

theorem mem_analyzeFunctionsList (strat : LanguageStrategy) : ∀ (cs : List TSNode)
    (parent : Option TSNode) (src : List Char) (func : FunctionMetric),
    func ∈ analyzeFunctionsList strat cs parent src → 1 ≤ func.complexity ∧ 1 ≤ func.line_count
  | [], _, _, func => by intro hmem; simp [analyzeFunctionsList] at hmem
  | c :: cs, parent, src, func => by
    intro hmem
    simp only [analyzeFunctionsList, List.mem_append] at hmem
    rcases hmem with hmem | hmem
    · exact mem_analyzeFunctions strat c parent src func hmem
    · exact mem_analyzeFunctionsList strat cs parent src func hmem

end

theorem length_le_sum_of_one_le (xs : List ℚ) (h : ∀ x ∈ xs, 1 ≤ x) :
    (xs.length : ℚ) ≤ xs.sum := by
  induction xs with
  | nil => simp
  | cons a l ih =>
    have ha := h a (List.mem_cons_self a l)
    have hl := ih (fun x hx => h x (List.mem_cons_of_mem a hx))
    simp only [List.length_cons, List.sum_cons]
    push_cast
    linarith

theorem one_le_avg (xs : List ℚ) (hne : xs ≠ []) (h : ∀ x ∈ xs, 1 ≤ x) :
    1 ≤ xs.sum / (xs.length : ℚ) := by
  have hpos : 0 < (xs.length : ℚ) := by
    have : 0 < xs.length := List.length_pos.mpr hne
    exact_mod_cast this
  rw [one_le_div hpos]
  exact length_le_sum_of_one_le xs h

theorem complexityScoreB_nonneg (x : ℚ) : 0 ≤ complexityScoreB x := le_max_left 0 _

theorem complexityScoreB_le_100 (x : ℚ) (h : 1 ≤ x) : complexityScoreB x ≤ 100 := by
  rw [complexityScoreB]
  apply max_le (by norm_num)
  have hx : (x - 1) / (20 - 1) * 100 = x * (100 / 19) - 100 / 19 := by ring
  rw [hx]
  linarith

theorem complexityScoreB_antitone (a b : ℚ) (hab : a ≤ b) :
    complexityScoreB b ≤ complexityScoreB a := by
  rw [complexityScoreB, complexityScoreB]
  apply max_le_max le_rfl
  have ha : (a - 1) / (20 - 1) * 100 = a * (100 / 19) - 100 / 19 := by ring
  have hb : (b - 1) / (20 - 1) * 100 = b * (100 / 19) - 100 / 19 := by ring
  rw [ha, hb]
  linarith

theorem lengthScoreB_nonneg (x : ℚ) : 0 ≤ lengthScoreB x := le_max_left 0 _

theorem lengthScoreB_le_110 (x : ℚ) (h : 1 ≤ x) : lengthScoreB x ≤ 110 := by
  rw [lengthScoreB]
  apply max_le (by norm_num)
  have hx : (x - 10) / (100 - 10) * 100 = x * (10 / 9) - 100 / 9 := by ring
  rw [hx]
  linarith

theorem lengthScoreB_antitone (a b : ℚ) (hab : a ≤ b) : lengthScoreB b ≤ lengthScoreB a := by
  rw [lengthScoreB, lengthScoreB]
  apply max_le_max le_rfl
  have ha : (a - 10) / (100 - 10) * 100 = a * (10 / 9) - 100 / 9 := by ring
  have hb : (b - 10) / (100 - 10) * 100 = b * (10 / 9) - 100 / 9 := by ring
  rw [ha, hb]
  linarith

theorem commentScoreB_nonneg (x : ℚ) : 0 ≤ commentScoreB x := le_max_left 0 _

theorem commentScoreB_le_100 (x : ℚ) : commentScoreB x ≤ 100 := by
  rw [commentScoreB]
  apply max_le (by norm_num)
  have h : 0 ≤ |x - 15| / 15 * 100 := by positivity
  linarith

theorem commentScoreA_nonneg (x : ℚ) (h : 0 ≤ x) : 0 ≤ commentScoreA x := by
  rw [commentScoreA]
  apply le_min (by norm_num)
  positivity

theorem commentScoreA_le_100 (x : ℚ) : commentScoreA x ≤ 100 := min_le_left 100 _

theorem namingScore_nonneg (v : Nat) : 0 ≤ namingScore v := le_max_left 0 _

theorem namingScore_le_100 (v : Nat) : namingScore v ≤ 100 := by
  rw [namingScore]
  apply max_le (by norm_num)
  have h : 0 ≤ (v : ℚ) * 5 := by positivity
  linarith


theorem calculateFinalScore_functions (m : FileMetrics) :
    (calculateFinalScore m).functions = m.functions := by
  simp only [calculateFinalScore]
  split_ifs <;> rfl

theorem calculateFinalScore_avg_len (m : FileMetrics) :
    (calculateFinalScore m).avg_function_length = avgLengthOf m := by
  simp only [calculateFinalScore, avgLengthOf]
  split_ifs <;> rfl

theorem calculateFinalScore_avg_cx (m : FileMetrics) :
    (calculateFinalScore m).avg_function_complexity = avgComplexityOf m := by
  simp only [calculateFinalScore, avgComplexityOf]
  split_ifs <;> rfl

theorem calculateFinalScore_smi (m : FileMetrics) :
    (calculateFinalScore m).shit_mountain_index =
      if m.functions.isEmpty then
        100 - (commentScoreA (coverageOf m) * 0.7 + namingScore m.naming_violations * 0.3)
      else
        100 - (complexityScoreB (avgComplexityOf m) * 0.50 + lengthScoreB (avgLengthOf m) * 0.15 +
               commentScoreB (coverageOf m) * 0.15 + namingScore m.naming_violations * 0.20) := by
  simp only [calculateFinalScore, avgComplexityOf, avgLengthOf, coverageOf]
  split_ifs <;> rfl

theorem smi_policy (m : FileMetrics) :
    (calculateFinalScore m).shit_mountain_index =
      if m.functions.isEmpty then policyA_spec (coverageOf m) m.naming_violations
      else policyB_spec (avgComplexityOf m) (avgLengthOf m) (coverageOf m) m.naming_violations := by
  rw [calculateFinalScore_smi]
  by_cases hm : m.functions.isEmpty
  · rw [if_pos hm, if_pos hm]
    simp only [policyA_spec, commentScoreA, namingScore]
  · rw [if_neg hm, if_neg hm]
    simp only [policyB_spec, complexityScoreB, lengthScoreB, commentScoreB, namingScore]

theorem calculateFinalScore_smi_bounds (m : FileMetrics)
    (hfun : ∀ func ∈ m.functions, 1 ≤ func.complexity ∧ 1 ≤ func.line_count)
    (hcov : 0 ≤ coverageOf m) :
    -(3/2) ≤ (calculateFinalScore m).shit_mountain_index ∧
      (calculateFinalScore m).shit_mountain_index ≤ 100 := by
  rw [calculateFinalScore_smi]
  by_cases hm : m.functions.isEmpty
  · rw [if_pos hm]
    have h1 := commentScoreA_nonneg _ hcov
    have h2 := commentScoreA_le_100 (coverageOf m)
    have h3 := namingScore_nonneg m.naming_violations
    have h4 := namingScore_le_100 m.naming_violations
    constructor <;> linarith
  · rw [if_neg hm]
    have hne : m.functions ≠ [] := by
      intro hcontra
      exact hm (by simp [hcontra])
    have hcx : 1 ≤ avgComplexityOf m := by
      rw [avgComplexityOf, if_pos (by simpa using hne)]
      rw [show ((m.functions.length : ℚ)) =
        (((m.functions.map (fun func => (func.complexity : ℚ))).length : ℚ)) by simp]
      apply one_le_avg
      · simpa using hne
      · intro x hx
        obtain ⟨func, hf, rfl⟩ := List.mem_map.1 hx
        exact_mod_cast (hfun func hf).1
    have hlen : 1 ≤ avgLengthOf m := by
      rw [avgLengthOf, if_pos (by simpa using hne)]
      rw [show ((m.functions.length : ℚ)) =
        (((m.functions.map (fun func => (func.line_count : ℚ))).length : ℚ)) by simp]
      apply one_le_avg
      · simpa using hne
      · intro x hx
        obtain ⟨func, hf, rfl⟩ := List.mem_map.1 hx
        exact_mod_cast (hfun func hf).2
    have b1 := complexityScoreB_nonneg (avgComplexityOf m)
    have b2 := complexityScoreB_le_100 _ hcx
    have b3 := lengthScoreB_nonneg (avgLengthOf m)
    have b4 := lengthScoreB_le_110 _ hlen
    have b5 := commentScoreB_nonneg (coverageOf m)
    have b6 := commentScoreB_le_100 (coverageOf m)
    have b7 := namingScore_nonneg m.naming_violations
    have b8 := namingScore_le_100 m.naming_violations
    constructor <;> linarith

theorem analyze_smi_bounds (strat : LanguageStrategy) (root : TSNode)
    (path : String) (src : List Char) :
    -(3/2) ≤ (analyze strat root path src).shit_mountain_index ∧
      (analyze strat root path src).shit_mountain_index ≤ 100 := by
  rw [analyze]
  apply calculateFinalScore_smi_bounds
  · intro func hf
    exact mem_analyzeFunctions strat root none src func hf
  · rw [coverageOf]
    split_ifs
    · positivity
    · norm_num


theorem analyzeFunctions_parent_irrel (strat : LanguageStrategy)
    (hstrat : ∀ n p q s, strat.extractFunctionName n p s = strat.extractFunctionName n q s)
    (node : TSNode) (p q : Option TSNode) (src : List Char) :
    analyzeFunctions strat node p src = analyzeFunctions strat node q src := by
  obtain ⟨ty, sr, er, sb, eb, f, cs⟩ := node
  simp only [analyzeFunctions]
  split_ifs with h1 h2
  · rfl
  · simp only [analyzeSingleFunction, hstrat (TSNode.mk ty sr er sb eb f cs) p q src]
  · rfl

theorem analyzeFunctionsList_skips (strat : LanguageStrategy) (node : TSNode)
    (hnode : ∀ parent src, analyzeFunctions strat node parent src = []) :
    ∀ (pre post : List TSNode) (parent : Option TSNode) (src : List Char),
      analyzeFunctionsList strat (pre ++ node :: post) parent src =
        analyzeFunctionsList strat (pre ++ post) parent src := by
  intro pre post parent src
  induction pre with
  | nil =>
    simp only [List.nil_append, analyzeFunctionsList, hnode, List.nil_append]
  | cons c cs ih =>
    simp only [List.cons_append, analyzeFunctionsList, List.append_eq, ih]

theorem collectMetrics_skip (entry : InputFile)
    (h : analyzeFile entry.path entry.sourceCode entry.parsedTree = {}) :
    ∀ pre post, collectMetrics (pre ++ entry :: post) = collectMetrics (pre ++ post) := by
  intro pre post
  rw [collectMetrics, collectMetrics, List.foldl_append, List.foldl_append, List.foldl_cons]
  congr 1
  simp [h]

theorem analyzeFile_parse_failed (filePath : String) (src : List Char) (t : Option TSNode)
    (h : t = none ∨ ∃ root, t = some root ∧ hasErrorNode root = true) :
    analyzeFile filePath src t = {} := by
  rw [analyzeFile.eq_def]
  dsimp only
  split_ifs with h1 h2
  · rfl
  · exfalso
    rcases h with rfl | ⟨root, rfl, herr⟩
    · simp [parseSucceeds] at h2
    · simp [parseSucceeds, herr] at h2
  · rfl

theorem rankingOutcome_swapped : rankingOutcome [reportA, reportB] [reportB, reportA] := by
  constructor
  · exact List.Perm.swap reportA reportB []
  · simp only [List.chain'_cons, List.chain'_singleton, and_true]
    norm_num [reportA, reportB]

/-! ## Claim theorems -/


/-- Claim C5 (confirmed): for every file with empty `functions` the final
index is computed exclusively by Policy A, for every file with at least one
function exclusively by Policy B, the branch being a pure function of
`functions.isEmpty` — the scored index equals the spec's Policy A formula
exactly when `functions` is empty and the spec's Policy B formula otherwise. -/
theorem c5_policy_branch (m : FileMetrics) :
    (calculateFinalScore m).shit_mountain_index =
      if m.functions.isEmpty then policyA_spec (coverageOf m) m.naming_violations
      else policyB_spec (avgComplexityOf m) (avgLengthOf m) (coverageOf m) m.naming_violations :=
  smi_policy m

/-- Claim C7 (confirmed): holding everything else fixed, increasing
`avg_function_complexity` never increases `complexity_score`, and increasing
`avg_function_length` never increases `length_score`. -/
theorem c7_score_monotonicity (a b : ℚ) (hab : a ≤ b) :
    complexityScoreB b ≤ complexityScoreB a ∧ lengthScoreB b ≤ lengthScoreB a :=
  ⟨complexityScoreB_antitone a b hab, lengthScoreB_antitone a b hab⟩

/-- Witness for C7 at the concrete pair 1 ≤ 2. -/
theorem c7_witness :
    (1 : ℚ) ≤ 2 ∧ complexityScoreB 2 ≤ complexityScoreB 1 ∧ lengthScoreB 2 ≤ lengthScoreB 1 :=
  ⟨by norm_num, (c7_score_monotonicity 1 2 (by norm_num)).1, (c7_score_monotonicity 1 2 (by norm_num)).2⟩

/-- Claim C8 (confirmed): `avg_function_complexity = 1` gives
`complexity_score = 100` exactly, and `avg_function_complexity ≥ 20` gives
`complexity_score = 0` exactly. -/
theorem c8_complexity_score_boundary :
    complexityScoreB 1 = 100 ∧ ∀ acx : ℚ, 20 ≤ acx → complexityScoreB acx = 0 := by
  constructor
  · have h : (100 : ℚ) - (1 - 1) / (20 - 1) * 100 = 100 := by norm_num
    rw [complexityScoreB, h]
    exact max_eq_right (by norm_num)
  · intro acx h
    rw [complexityScoreB]
    have hx : (acx - 1) / (20 - 1) * 100 = acx * (100 / 19) - 100 / 19 := by ring
    rw [hx]
    exact max_eq_left (by linarith)

/-- Witness for C8 at the concrete boundary value 20. -/
theorem c8_witness : (20 : ℚ) ≤ 20 ∧ complexityScoreB 20 = 0 :=
  ⟨le_refl 20, c8_complexity_score_boundary.2 20 (le_refl 20)⟩

/-- Claim C10 (confirmed): at any node whose type is a function-definition
type the traversal emits at most the node's own record and never descends
into the subtree — special (exempt) or not — so a function definition nested
inside another function-type node never appears in the functions list. -/
theorem c10_no_descend_into_functions (strat : LanguageStrategy) (node : TSNode)
    (parent : Option TSNode) (src : List Char)
    (h : node.type ∈ strat.functionDefinitionTypes) :
    analyzeFunctions strat node parent src =
      if strat.isSpecialFunction node then [] else [analyzeSingleFunction strat node parent src] := by
  obtain ⟨ty, sr, er, sb, eb, f, cs⟩ := node
  simp only [TSNode.type] at h
  simp only [analyzeFunctions, if_pos h]

/-- Witness for C10: a JS function declaration with a nested function
declaration inside yields exactly its own record, and the nested function's
record is absent. -/
theorem c10_witness :
    jsOuterFunc.type ∈ jsStrategy.functionDefinitionTypes ∧
    analyzeFunctions jsStrategy jsOuterFunc none [] =
      [analyzeSingleFunction jsStrategy jsOuterFunc none []] ∧
    analyzeSingleFunction jsStrategy jsInnerFunc (some jsOuterFunc) [] ∉
      analyzeFunctions jsStrategy jsOuterFunc none [] := by
  refine ⟨by decide, ?_, ?_⟩
  · rw [c10_no_descend_into_functions jsStrategy jsOuterFunc none [] (by decide)]
    rfl
  · rw [c10_no_descend_into_functions jsStrategy jsOuterFunc none [] (by decide)]
    decide

/-- Claim C2 (corrected): every ranking outcome the code's `std::sort` call
may produce is a permutation of the input (it preserves all multiplicities)
that is sorted by `legacy_index` descending at every pair of positions.
Stability on ties is NOT guaranteed — see the counterexample. -/
theorem c2_ranking_sorted_desc :
    ∀ input output : List FileMetrics, rankingOutcome input output →
      (∀ m : FileMetrics, output.count m = input.count m) ∧
      (∀ i j : Nat, ∀ hij : i < j, ∀ hj : j < output.length,
        (output.get ⟨j, hj⟩).shit_mountain_index ≤
          (output.get ⟨i, Nat.lt_trans hij hj⟩).shit_mountain_index) := by
  intro input output hro
  obtain ⟨hperm, hchain⟩ := hro
  constructor
  · intro m
    exact hperm.count_eq m
  · haveI : IsTrans FileMetrics
        (fun a b => ¬(b.shit_mountain_index > a.shit_mountain_index)) :=
      ⟨fun a b c hab hbc => by
        simp only [not_lt] at hab hbc ⊢
        exact le_trans hbc hab⟩
    have hp := List.chain'_iff_pairwise.mp hchain
    rw [List.pairwise_iff_get] at hp
    intro i j hij hj
    have hr := hp ⟨i, Nat.lt_trans hij hj⟩ ⟨j, hj⟩ hij
    simpa [not_lt] using hr

/-- Witness for C2 at a concrete two-report ranking outcome. -/
theorem c2_witness :
    rankingOutcome [reportA, reportB] [reportB, reportA] ∧
    [reportB, reportA].count reportA = [reportA, reportB].count reportA ∧
    ([reportB, reportA].get ⟨1, by norm_num⟩).shit_mountain_index ≤
      ([reportB, reportA].get ⟨0, by norm_num⟩).shit_mountain_index := by
  refine ⟨rankingOutcome_swapped, ?_, ?_⟩
  · exact (c2_ranking_sorted_desc _ _ rankingOutcome_swapped).1 reportA
  · exact (c2_ranking_sorted_desc _ _ rankingOutcome_swapped).2 0 1 (by norm_num) (by norm_num)

/-- Counterexample for C2 as stated: for the input `[reportA, reportB]`
(equal indices 50, discovery order A before B), the swapped output
`[reportB, reportA]` is a legitimate `std::sort` outcome, so relative
discovery order of ties is not preserved. -/
theorem c2_counterexample :
    rankingOutcome [reportA, reportB] [reportB, reportA] ∧
    reportA.shit_mountain_index = reportB.shit_mountain_index ∧
    reportA ≠ reportB ∧
    ([reportB, reportA] : List FileMetrics) ≠ [reportA, reportB] := by
  refine ⟨rankingOutcome_swapped, rfl, by decide, by decide⟩

/-- Claim C9 (confirmed): when the parse of a file fails outright (`none`)
or yields a tree containing a syntax error, the per-file pipeline returns
the default-constructed report (no analysis is performed), the collection
loop keeps no report for the file, and all remaining files are processed
exactly as if the failing file were absent. -/
theorem c9_parse_failure_is_skipped (filePath : String) (src : List Char) (t : Option TSNode)
    (h : t = none ∨ ∃ root, t = some root ∧ hasErrorNode root = true) :
    analyzeFile filePath src t = {} ∧
      ∀ pre post : List InputFile,
        collectMetrics (pre ++ ⟨filePath, src, t⟩ :: post) = collectMetrics (pre ++ post) := by
  have h1 := analyzeFile_parse_failed filePath src t h
  exact ⟨h1, fun pre post => collectMetrics_skip ⟨filePath, src, t⟩ h1 pre post⟩

/-- Witness for C9 at a concrete erroneous tree. -/
theorem c9_witness :
    hasErrorNode errorRoot = true ∧
    analyzeFile "bad.c" [] (some errorRoot) = {} ∧
    collectMetrics [⟨"bad.c", [], some errorRoot⟩] = [] := by
  have h : some errorRoot = none ∨
      ∃ root, (some errorRoot = some root) ∧ hasErrorNode root = true :=
    Or.inr ⟨errorRoot, rfl, by decide⟩
  refine ⟨by decide, (c9_parse_failure_is_skipped "bad.c" [] (some errorRoot) h).1, ?_⟩
  have h2 := (c9_parse_failure_is_skipped "bad.c" [] (some errorRoot) h).2 [] []
  simpa using h2


theorem analyzeFunctionsList_parent_irrel (strat : LanguageStrategy)
    (hstrat : ∀ n p q s, strat.extractFunctionName n p s = strat.extractFunctionName n q s) :
    ∀ (cs : List TSNode) (p q : Option TSNode) (src : List Char),
      analyzeFunctionsList strat cs p src = analyzeFunctionsList strat cs q src := by
  intro cs p q src
  induction cs with
  | nil => rfl
  | cons c rest ih =>
    simp only [analyzeFunctionsList, ih, analyzeFunctions_parent_irrel strat hstrat c p q src]

/-- Claim C3 (amended): every recorded function name is non-empty; name
extraction that finds no identifier yields `"[extraction_failed]"` (C/C++) or
`"[anonymous function]"` (JS); additionally, when the extracted name is the
empty string the analyzer substitutes the third placeholder
`"[anonymous/unknown]"` — so a recorded name is either the extraction result
or that sentinel. -/
theorem c3_function_name_placeholders :
    (∀ (strat : LanguageStrategy) (node : TSNode) (parent : Option TSNode) (src : List Char),
      (analyzeSingleFunction strat node parent src).name ≠ "" ∧
      ((analyzeSingleFunction strat node parent src).name =
          strat.extractFunctionName node parent src ∨
       (analyzeSingleFunction strat node parent src).name = "[anonymous/unknown]")) ∧
    (∀ (node : TSNode) (parent : Option TSNode) (src : List Char),
      childByField node "declarator" = none →
        cExtractFunctionName node parent src = "[extraction_failed]") ∧
    (∀ (node d : TSNode) (parent : Option TSNode) (src : List Char),
      childByField node "declarator" = some d → findIdentifierRecursive d = none →
        cExtractFunctionName node parent src = "[extraction_failed]") ∧
    (∀ (node : TSNode) (parent : Option TSNode) (src : List Char),
      childByField node "name" = none → node.type ≠ "arrow_function" →
        jsExtractFunctionName node parent src = "[anonymous function]") := by
  refine ⟨?_, ?_, ?_, ?_⟩
  · intro strat node parent src
    simp only [analyzeSingleFunction]
    by_cases h : strat.extractFunctionName node parent src = ""
    · rw [if_pos h]
      exact ⟨by decide, Or.inr rfl⟩
    · rw [if_neg h]
      exact ⟨h, Or.inl rfl⟩
  · intro node parent src h
    simp only [cExtractFunctionName, h]
  · intro node d parent src h1 h2
    simp only [cExtractFunctionName, h1, h2]
  · intro node parent src h1 h2
    simp only [jsExtractFunctionName, h1]
    rw [if_neg h2]

/-- Witness for C3 at concrete nodes for each placeholder path. -/
theorem c3_witness :
    (analyzeSingleFunction cStrategy c1Func none c1Src).name ≠ "" ∧
    cExtractFunctionName pyAnonFunc none [] = "[extraction_failed]" ∧
    cExtractFunctionName dtorFunc none [] = "[extraction_failed]" ∧
    jsExtractFunctionName pyAnonFunc none [] = "[anonymous function]" := by
  refine ⟨(c3_function_name_placeholders.1 cStrategy c1Func none c1Src).1, ?_, ?_, ?_⟩
  · exact c3_function_name_placeholders.2.1 pyAnonFunc none [] rfl
  · exact c3_function_name_placeholders.2.2.1 dtorFunc dtorDeclarator none [] rfl rfl
  · exact c3_function_name_placeholders.2.2.2 pyAnonFunc none [] rfl (by decide)

/-- Counterexample for C3 as stated: a Python function-definition node with
no name field is recorded under the placeholder `"[anonymous/unknown]"`,
which is neither of the two placeholders the claim allows. -/
theorem c3_counterexample :
    analyzeFunctions pythonStrategy pyAnonFunc none [] =
      [{ name := "[anonymous/unknown]", line_start := 1, line_end := 1,
         line_count := 1, complexity := 1 }] ∧
    ("[anonymous/unknown]" : String) ≠ "[anonymous function]" ∧
    ("[anonymous/unknown]" : String) ≠ "[extraction_failed]" :=
  ⟨by decide, by decide, by decide⟩

/-- Claim C4 (amended): complexity equals the subtree sum of the mutually
exclusive per-node indicator (complexity-type checked first, else logical
operator) plus one point for EVERY function-definition-type node in the
subtree (the function node itself and every nested one), and every
discovered function has complexity ≥ 1. -/
theorem c4_complexity_decomposition :
    (∀ (strat : LanguageStrategy) (node : TSNode),
      calculateComplexity strat node = indicatorSum strat node + funcNodeCount strat node) ∧
    (∀ (strat : LanguageStrategy) (node : TSNode),
      node.type ∈ strat.functionDefinitionTypes → 1 ≤ calculateComplexity strat node) ∧
    (∀ (strat : LanguageStrategy) (node : TSNode) (parent : Option TSNode) (src : List Char)
        (func : FunctionMetric),
      func ∈ analyzeFunctions strat node parent src → 1 ≤ func.complexity) :=
  ⟨fun strat node => calculateComplexity_decomposed strat node,
   fun strat node h => one_le_calculateComplexity strat node h,
   fun strat node parent src func hf => (mem_analyzeFunctions strat node parent src func hf).1⟩

/-- Witness for C4 at the concrete one-function C tree. -/
theorem c4_witness :
    c1Func.type ∈ cStrategy.functionDefinitionTypes ∧
    1 ≤ calculateComplexity cStrategy c1Func ∧
    analyzeSingleFunction cStrategy c1Func none c1Src ∈
      analyzeFunctions cStrategy c1Func none c1Src ∧
    1 ≤ (analyzeSingleFunction cStrategy c1Func none c1Src).complexity :=
  ⟨by decide,
   c4_complexity_decomposition.2.1 cStrategy c1Func (by decide),
   by decide,
   c4_complexity_decomposition.2.2 cStrategy c1Func none c1Src _ (by decide)⟩

/-- Counterexample for C4 as stated: a JS function declaration with one
nested function declaration gets code complexity 2, while the claim's
formula (indicator sum plus exactly one base point) gives 1. -/
theorem c4_counterexample :
    calculateComplexity jsStrategy jsOuterFunc = 2 ∧
    indicatorSum jsStrategy jsOuterFunc + 1 = 1 ∧
    (2 : Nat) ≠ 1 :=
  ⟨by decide, by decide, by decide⟩


/-- Claim C6 (confirmed): an operator-overload or destructor definition
(a special function node for the C/C++ strategy) is never emitted into the
functions list — visiting it yields no record, removing it from any sibling
list leaves the discovered list unchanged, and the resulting
`avg_function_length` and `avg_function_complexity` are exactly those of the
file without it. -/
theorem c6_exempt_functions_excluded (node : TSNode)
    (h1 : node.type ∈ cStrategy.functionDefinitionTypes)
    (h2 : cStrategy.isSpecialFunction node = true) :
    (∀ (parent : Option TSNode) (src : List Char),
      analyzeFunctions cStrategy node parent src = []) ∧
    (∀ (pre post : List TSNode) (parent : Option TSNode) (src : List Char),
      analyzeFunctionsList cStrategy (pre ++ node :: post) parent src =
        analyzeFunctionsList cStrategy (pre ++ post) parent src) ∧
    (∀ (ty : String) (sr er sb eb : Nat) (fl : Option String) (pre post : List TSNode)
        (path : String) (src : List Char), ty ∉ cStrategy.functionDefinitionTypes →
      (analyze cStrategy (.mk ty sr er sb eb fl (pre ++ node :: post)) path src).functions =
        (analyze cStrategy (.mk ty sr er sb eb fl (pre ++ post)) path src).functions ∧
      (analyze cStrategy (.mk ty sr er sb eb fl (pre ++ node :: post)) path
            src).avg_function_length =
        (analyze cStrategy (.mk ty sr er sb eb fl (pre ++ post)) path src).avg_function_length ∧
      (analyze cStrategy (.mk ty sr er sb eb fl (pre ++ node :: post)) path
            src).avg_function_complexity =
        (analyze cStrategy (.mk ty sr er sb eb fl (pre ++ post)) path
            src).avg_function_complexity) := by
  have hirrel : ∀ n p q s,
      cStrategy.extractFunctionName n p s = cStrategy.extractFunctionName n q s :=
    fun n p q s => rfl
  have hempty : ∀ (parent : Option TSNode) (src : List Char),
      analyzeFunctions cStrategy node parent src = [] := by
    intro parent src
    obtain ⟨ty, sr, er, sb, eb, f, cs⟩ := node
    simp only [TSNode.type] at h1
    simp only [analyzeFunctions, if_pos h1, h2, if_pos]
  refine ⟨hempty, fun pre post parent src =>
    analyzeFunctionsList_skips cStrategy node hempty pre post parent src, ?_⟩
  intro ty sr er sb eb fl pre post path src hty
  have hfe : analyzeFunctions cStrategy (.mk ty sr er sb eb fl (pre ++ node :: post)) none src =
      analyzeFunctions cStrategy (.mk ty sr er sb eb fl (pre ++ post)) none src := by
    simp only [analyzeFunctions, if_neg hty]
    rw [analyzeFunctionsList_parent_irrel cStrategy hirrel (pre ++ node :: post)
        (some (.mk ty sr er sb eb fl (pre ++ node :: post))) none src,
      analyzeFunctionsList_parent_irrel cStrategy hirrel (pre ++ post)
        (some (.mk ty sr er sb eb fl (pre ++ post))) none src]
    exact analyzeFunctionsList_skips cStrategy node hempty pre post none src
  refine ⟨?_, ?_, ?_⟩
  · rw [analyze, calculateFinalScore_functions, analyze, calculateFinalScore_functions]
    exact hfe
  · rw [analyze, calculateFinalScore_avg_len, analyze, calculateFinalScore_avg_len]
    simp only [avgLengthOf]
    rw [hfe]
  · rw [analyze, calculateFinalScore_avg_cx, analyze, calculateFinalScore_avg_cx]
    simp only [avgComplexityOf]
    rw [hfe]

/-- Witness for C6 at a concrete destructor definition. -/
theorem c6_witness :
    dtorFunc.type ∈ cStrategy.functionDefinitionTypes ∧
    cStrategy.isSpecialFunction dtorFunc = true ∧
    analyzeFunctions cStrategy dtorFunc none [] = [] ∧
    analyzeFunctionsList cStrategy [c1Func, dtorFunc] none c1Src =
      analyzeFunctionsList cStrategy [c1Func] none c1Src := by
  refine ⟨by decide, by decide, ?_, ?_⟩
  · exact (c6_exempt_functions_excluded dtorFunc (by decide) (by decide)).1 none []
  · have h := (c6_exempt_functions_excluded dtorFunc (by decide) (by decide)).2.1
      [c1Func] [] none c1Src
    simpa using h


/-- Claim C1 (amended): under Policy B, `complexity_score`, `comment_score`
and `naming_score` lie in [0, 100] given the input domains, and Policy A's
scores do too, but `length_score` is only bounded by [0, 110] — it exceeds
100 whenever the average function length is below 10 — and consequently the
final `legacy_index` of every analyzed file lies in [-3/2, 100], not in
[0, 100]. -/
theorem c1_score_and_index_bounds :
    (∀ acx : ℚ, 1 ≤ acx → 0 ≤ complexityScoreB acx ∧ complexityScoreB acx ≤ 100) ∧
    (∀ alen : ℚ, 1 ≤ alen → 0 ≤ lengthScoreB alen ∧ lengthScoreB alen ≤ 110) ∧
    (∀ cov : ℚ, 0 ≤ commentScoreB cov ∧ commentScoreB cov ≤ 100) ∧
    (∀ cov : ℚ, 0 ≤ cov → 0 ≤ commentScoreA cov ∧ commentScoreA cov ≤ 100) ∧
    (∀ v : Nat, 0 ≤ namingScore v ∧ namingScore v ≤ 100) ∧
    (∀ (strat : LanguageStrategy) (root : TSNode) (path : String) (src : List Char),
      -(3/2) ≤ (analyze strat root path src).shit_mountain_index ∧
        (analyze strat root path src).shit_mountain_index ≤ 100) :=
  ⟨fun acx h => ⟨complexityScoreB_nonneg acx, complexityScoreB_le_100 acx h⟩,
   fun alen h => ⟨lengthScoreB_nonneg alen, lengthScoreB_le_110 alen h⟩,
   fun cov => ⟨commentScoreB_nonneg cov, commentScoreB_le_100 cov⟩,
   fun cov h => ⟨commentScoreA_nonneg cov h, commentScoreA_le_100 cov⟩,
   fun v => ⟨namingScore_nonneg v, namingScore_le_100 v⟩,
   fun strat root path src => analyze_smi_bounds strat root path src⟩

/-- Witness for C1 at concrete score inputs. -/
theorem c1_witness :
    ((1 : ℚ) ≤ 1 ∧ 0 ≤ complexityScoreB 1 ∧ complexityScoreB 1 ≤ 100) ∧
    ((1 : ℚ) ≤ 1 ∧ 0 ≤ lengthScoreB 1 ∧ lengthScoreB 1 ≤ 110) ∧
    ((0 : ℚ) ≤ 15 ∧ 0 ≤ commentScoreA 15 ∧ commentScoreA 15 ≤ 100) := by
  refine ⟨⟨le_refl 1, ?_⟩, ⟨le_refl 1, ?_⟩, ⟨by norm_num, ?_⟩⟩
  · exact c1_score_and_index_bounds.1 1 (le_refl 1)
  · exact c1_score_and_index_bounds.2.1 1 (le_refl 1)
  · exact c1_score_and_index_bounds.2.2.2.1 15 (by norm_num)

/-- Counterexample for C1 as stated: `length_score` at average length 1 is
110 > 100, and the 20-line C file `c1Root` with one one-line function of
complexity 1, 15% comment coverage and no naming violations — raw metrics
inside every input domain — is scored `legacy_index = -3/2 < 0`. -/
theorem c1_counterexample :
    lengthScoreB 1 = 110 ∧ ¬(lengthScoreB 1 ≤ 100) ∧
    (analyze cStrategy c1Root "demo.c" c1Src).avg_function_length = 1 ∧
    (analyze cStrategy c1Root "demo.c" c1Src).avg_function_complexity = 1 ∧
    (analyze cStrategy c1Root "demo.c" c1Src).shit_mountain_index = -(3/2) ∧
    ¬(0 ≤ (analyze cStrategy c1Root "demo.c" c1Src).shit_mountain_index) := by
  have hfuncs : analyzeFunctions cStrategy c1Root none c1Src =
      [{ name := "foo", line_start := 1, line_end := 1, line_count := 1, complexity := 1 }] := by
    decide
  have hcl : commentLines c1Root = 3 := by decide
  have hnv : namingViolations c1Src c1Root = 0 := by decide
  have her : c1Root.endRow = 19 := by decide
  have hls : lengthScoreB 1 = 110 := by
    have h : (100 : ℚ) - (1 - 10) / (100 - 10) * 100 = 110 := by norm_num
    rw [lengthScoreB, h]
    exact max_eq_right (by norm_num)
  have hsmi : (analyze cStrategy c1Root "demo.c" c1Src).shit_mountain_index = -(3/2) := by
    rw [analyze, hfuncs, hcl, hnv, her]
    simp only [calculateFinalScore, complexityScoreB, lengthScoreB, commentScoreB, namingScore,
      List.isEmpty, List.map, List.sum, List.length]
    norm_num
  have halen : (analyze cStrategy c1Root "demo.c" c1Src).avg_function_length = 1 := by
    rw [analyze, calculateFinalScore_avg_len]
    simp only [avgLengthOf, hfuncs]
    norm_num
  have hacx : (analyze cStrategy c1Root "demo.c" c1Src).avg_function_complexity = 1 := by
    rw [analyze, calculateFinalScore_avg_cx]
    simp only [avgComplexityOf, hfuncs]
    norm_num
  refine ⟨hls, ?_, halen, hacx, hsmi, ?_⟩
  · rw [hls]; norm_num
  · rw [hsmi]; norm_num

end CodeWisdom
